import Mathlib

/-!
Shallow embedding of the peti narrow-band signal-search pipeline
(scanner window kernels, linear fitter, hit grouping, hit-map and event
serialization, event assembly and scoring), together with theorems that
settle the specification claims against the code.

Modelling conventions:
* machine integers are `Nat` (all the integers involved are nonnegative
  Python ints; Python `//` and `%` on nonnegative ints agree with `Nat`
  division and remainder);
* floating point values are modelled exactly: `Rat` where the code only
  adds, multiplies, divides and compares, and `Real` in the fitter and the
  std-dev clamp, where `sqrt` appears;
* numpy arrays are lists (2-D arrays are lists of row lists), and the
  vectorized numpy operations are written out elementwise with numpy's
  as-if-copied right-hand-side semantics;
* fallible code (Python `assert` / `raise`) returns `Option` or `Except`.
-/

namespace Peti

open scoped Classical

/-- config.py: standard amount below which to combine hits. -/
def MARGIN : ℕ := 10

/-! ## Window statistics kernel (scanner.py: calculate_window_mean) -/

/-- Inclusive prefix sums starting from accumulator `acc`
(`cp.cumsum(array, axis=1)` on one row). -/
def cumsumFrom (acc : ℚ) : List ℚ → List ℚ
  | [] => []
  | x :: xs => (acc + x) :: cumsumFrom (acc + x) xs

/-- `cp.cumsum` on one row. -/
def cumsum (row : List ℚ) : List ℚ := cumsumFrom 0 row

/-- One row of the vectorized update `sums[:, w:] -= sums[:, :-w]`.
numpy/cupy ufunc semantics read the right-hand side as if copied before the
write, so entry `i` becomes `s i - s (i - w)` for `i ≥ w` and stays `s i`
for `i < w`. -/
def shiftSub (s : List ℚ) (w : ℕ) : List ℚ :=
  (List.range s.length).map (fun i => if i < w then s.getD i 0 else s.getD i 0 - s.getD (i - w) 0)

/-- scanner.py `calculate_window_mean`, one row: prefix sums, shifted
subtraction, drop the first `w - 1` columns, divide by the window size. -/
def rowWindowMean (w : ℕ) (row : List ℚ) : List ℚ :=
  ((shiftSub (cumsum row) w).drop (w - 1)).map (fun x => x / (w : ℚ))

/-- scanner.py `calculate_window_mean` on a 2-D array: rows are independent. -/
def calculateWindowMean (a : List (List ℚ)) (w : ℕ) : List (List ℚ) :=
  a.map (rowWindowMean w)

/-- Naive reference definition of the window mean, from the spec's words:
output column `i` is `(Σ_{k=0..w−1} A[r,i+k]) / w`. -/
def windowMeanSpec (w : ℕ) (row : List ℚ) : List ℚ :=
  (List.range (row.length - w + 1)).map (fun i => (((row.drop i).take w).sum) / (w : ℚ))

/-- Naive reference window mean on a 2-D array. -/
def calculateWindowMeanSpec (a : List (List ℚ)) (w : ℕ) : List (List ℚ) :=
  a.map (windowMeanSpec w)

/-! ## Window std-dev kernel (scanner.py: calculate_window_stats) -/

/-- scanner.py `calculate_window_stats`: window mean, `E[X²]` via the same
kernel on the squared array, variance `E[X²] − (E[X])²`, and the std-dev
`cp.maximum(cp.sqrt(variance), 0.01)`.  The float arithmetic is modelled
exactly (`Rat` up to the variance, `Real.sqrt` for the square root). -/
noncomputable def calculateWindowStats (a : List (List ℚ)) (w : ℕ) :
    List (List ℚ) × List (List ℝ) :=
  let mean := calculateWindowMean a w
  let ex2 := calculateWindowMean (a.map (fun r => r.map (fun x => x * x))) w
  let variance := ex2.zipWith (fun er mr => er.zipWith (fun e m => e - m * m) mr) mean
  (mean, variance.map (fun r => r.map (fun v => max (Real.sqrt (v : ℝ)) (1 / 100))))

/-! ## Linear fitter (hit_info.py: HitInfo.linear_fit) -/

/-- `fit_data[mask]` restricted to one row: the row values where the mask
is true, in order. -/
def selRow (dr : List ℝ) (mr : List Bool) : List ℝ :=
  (dr.zip mr).filterMap (fun p => if p.2 then some p.1 else none)

/-- numpy boolean-mask selection `fit_data[mask]` (row-major order). -/
def selectMasked (data : List (List ℝ)) (mask : List (List Bool)) : List ℝ :=
  (data.zip mask).flatMap (fun p => selRow p.1 p.2)

/-- numpy `.mean()` (junk value 0 on an empty selection, where numpy warns
and yields nan; no theorem depends on that case). -/
noncomputable def npMean (l : List ℝ) : ℝ := l.sum / l.length

/-- numpy `.std()`: population standard deviation. -/
noncomputable def npStd (l : List ℝ) : ℝ :=
  Real.sqrt ((l.map (fun x => (x - npMean l) ^ 2)).sum / l.length)

/-- The elementwise conjunction `np.logical_and(mask, fit_data < t)` on one
row of the mask. -/
noncomputable def maskAndRow (t : ℝ) (mr : List Bool) (dr : List ℝ) : List Bool :=
  mr.zipWith (fun m x => m && decide (x < t)) dr

/-- One iteration of the sigma-clip mask update:
`mask = np.logical_and(mask, fit_data < mean + alpha * std)` with the noise
model taken from the pixels currently in the mask. -/
noncomputable def clipMaskStep (alpha : ℝ) (data : List (List ℝ)) (mask : List (List Bool)) :
    List (List Bool) :=
  mask.zipWith
    (maskAndRow (npMean (selectMasked data mask) + alpha * npStd (selectMasked data mask))) data

/-- The sigma-clipping loop of `HitInfo.linear_fit`: keep refining while the
selection shrinks, stop when it stabilises, and raise `ValueError("coding
error")` if it ever grows (modelled as `Except.error`).  On success it
returns the final mask and the converged noise model (mean, std). -/
noncomputable def clipLoop (alpha : ℝ) (data : List (List ℝ)) (mask : List (List Bool)) :
    Except String (List (List Bool) × ℝ × ℝ) :=
  if h : (selectMasked data (clipMaskStep alpha data mask)).length <
      (selectMasked data mask).length then
    clipLoop alpha data (clipMaskStep alpha data mask)
  else if (selectMasked data (clipMaskStep alpha data mask)).length =
      (selectMasked data mask).length then
    .ok (clipMaskStep alpha data mask, npMean (selectMasked data mask),
      npStd (selectMasked data mask))
  else .error "coding error"
termination_by (selectMasked data mask).length
decreasing_by exact h

/-- Entry `(i, j)` of a 2-D boolean mask (false outside the mask's extent). -/
def get2 (m : List (List Bool)) (i j : ℕ) : Bool := (m.getD i []).getD j false

/-- A hit window `(row, first_column, last_column)`, columns relative to the
chunk (scanner.py: find_hit_windows). -/
abbrev HitWindow := ℕ × ℕ × ℕ

/-- numpy `np.amax(row)` (junk value 0 on an empty row, where numpy raises;
chunk rows are nonempty in use). -/
noncomputable def npAmaxRow (l : List ℝ) : ℝ :=
  match l with
  | [] => 0
  | x :: xs => xs.foldl max x

/-- numpy `.argmax()`: index of the first occurrence of the maximum
(junk value 0 on an empty list, where numpy raises). -/
noncomputable def npArgmax (l : List ℝ) : ℕ :=
  (l.enum.foldl (fun best p => if p.2 > best.2 then p else best) (0, l.headD 0)).1

/-- The initial noise mask of `HitInfo.linear_fit`: all pixels are noise
except, for each hit window, the argmax pixel of that window's row range. -/
noncomputable def initialMask (hitWindows : List HitWindow) (fitData : List (List ℝ))
    (fitOffset : ℕ) : List (List Bool) :=
  hitWindows.foldl
    (fun m hw =>
      let b := hw.2.1 - fitOffset
      let e := hw.2.2 - fitOffset + 1
      let maxIndex := npArgmax (((fitData.getD hw.1 []).drop b).take (e - b))
      m.set hw.1 ((m.getD hw.1 []).set (b + maxIndex) false))
    (fitData.map (fun r => r.map (fun _ => true)))

/-- The fit fields `HitInfo.linear_fit` populates on success. -/
structure FitResult where
  driftRate : ℝ
  driftStart : ℝ
  snr : ℝ
  mse : ℝ
  area : ℕ

/-- hit_info.py `HitInfo.linear_fit` (alpha = 3.5, max_columns = 1000 at the
call site).  Returns `none` when fitting is skipped and the fit fields stay
unset; otherwise all fit fields are populated.  The least-squares solve of
`np.linalg.lstsq` is written in closed form (rate 0 when the normal-equation
denominator degenerates, where numpy returns the minimum-norm solution, and
`mse = 0` when numpy returns no residual: fewer than 3 points or a rank
deficiency).  The hit windows are a required argument, mirroring
`assert self.hit_windows is not None`; `dataArr` is the coarse-channel array
and `dataOffset` its offset in the file. -/
noncomputable def linearFit (alpha : ℝ) (hitWindows : List HitWindow)
    (dataArr : List (List ℝ)) (dataOffset : ℕ) (firstColumn lastColumn : ℕ) :
    Option FitResult :=
  if 1000 ≤ lastColumn - firstColumn then none
  else
    let fitOffset := max (firstColumn - MARGIN) 0
    let fitData := dataArr.map (fun r => (r.drop fitOffset).take (lastColumn + MARGIN + 1 - fitOffset))
    match clipLoop alpha fitData (initialMask hitWindows fitData fitOffset) with
    | .error _ => none
    | .ok (mask, mean, std) =>
      let pts := mask.enum.flatMap
        (fun rp => rp.2.enum.filterMap
          (fun q => if q.2 then none else some ((rp.1 : ℝ), (q.1 : ℝ))))
      let n : ℝ := pts.length
      let sr := (pts.map (fun p => p.1)).sum
      let sc := (pts.map (fun p => p.2)).sum
      let srr := (pts.map (fun p => p.1 * p.1)).sum
      let src := (pts.map (fun p => p.1 * p.2)).sum
      let denom := n * srr - sr * sr
      let rate := (n * src - sr * sc) / denom
      let start := (sc - rate * sr) / n
      let residual := (pts.map (fun p => (p.2 - (rate * p.1 + start)) ^ 2)).sum
      some { driftRate := rate,
             driftStart := (fitOffset : ℝ) + (dataOffset : ℝ) + start,
             snr := (npMean (fitData.map npAmaxRow) - mean) / std,
             mse := if pts.length ≤ 2 ∨ denom = 0 then 0 else residual / n,
             area := pts.length }

/-- The width, in columns, of the padded fit region described by the spec:
columns `max(first_col − MARGIN, 0)` through `last_col + MARGIN` inclusive. -/
def specPaddedWidth (firstColumn lastColumn : ℕ) : ℕ :=
  lastColumn + MARGIN + 1 - max (firstColumn - MARGIN) 0

/-! ## HitInfo and hit-window grouping (hit_info.py) -/

/-- hit_info.py `HitInfo`.  Columns are relative to the coarse channel; the
fit fields start unset (`None`) and are populated by `linear_fit` or by
deserialisation.  The chunk back-pointer (`data`) is not modelled; float
fields are modelled as exact rationals. -/
structure HitInfo where
  coarseChannel : ℕ
  coarseChannelSize : ℕ
  firstColumn : ℕ
  lastColumn : ℕ
  hitWindows : Option (List HitWindow) := none
  driftRate : Option ℚ := none
  driftStart : Option ℚ := none
  snr : Option ℚ := none
  mse : Option ℚ := none
  area : Option ℚ := none
deriving DecidableEq

instance : Inhabited HitInfo :=
  ⟨{ coarseChannel := 0, coarseChannelSize := 0, firstColumn := 0, lastColumn := 0 }⟩

/-- `self.offset = self.coarse_channel * self.coarse_channel_size`. -/
def HitInfo.offset (h : HitInfo) : ℕ := h.coarseChannel * h.coarseChannelSize

/-- `HitInfo.from_hit_windows`: span of a list of hit windows
(`coarse_channel_size` is `len(data)`, the chunk width).  Minimum and maximum
of an empty list are junk 0; Python `min`/`max` raise there and the grouping
walk only builds nonempty groups. -/
def HitInfo.fromHitWindows (hitWindows : List HitWindow) (coarseChannel ccSize : ℕ) : HitInfo :=
  { coarseChannel := coarseChannel
    coarseChannelSize := ccSize
    firstColumn := ((hitWindows.map (fun w => w.2.1)).min?).getD 0
    lastColumn := ((hitWindows.map (fun w => w.2.2)).max?).getD 0
    hitWindows := some hitWindows }

/-- `HitInfo.plausible_next_column`: `last_column + 2 * width + MARGIN`. -/
def HitInfo.plausibleNextColumn (h : HitInfo) : ℕ :=
  h.lastColumn + 2 * (h.lastColumn - h.firstColumn) + MARGIN

/-- `HitInfo.join`: the joined hit spans both; the hit windows and every fit
field are left unset (`can_join`'s coarse-channel asserts are preconditions
of the call sites). -/
def HitInfo.join (a b : HitInfo) : HitInfo :=
  { coarseChannel := a.coarseChannel
    coarseChannelSize := a.coarseChannelSize
    firstColumn := a.firstColumn
    lastColumn := b.lastColumn }

/-- `HitInfo.distance`: gap from this hit to the next one (the source asserts
`self.last_column <= other.first_column`). -/
def HitInfo.distance (a b : HitInfo) : ℕ := b.firstColumn - a.lastColumn

/-- The margin-walk of `group_hit_windows`: fold the sorted hit windows,
carrying the finished groups, the pending group and its
`pending_last_column`. -/
def groupWalkStep (st : List (List HitWindow) × Option (List HitWindow × ℕ)) (hit : HitWindow) :
    List (List HitWindow) × Option (List HitWindow × ℕ) :=
  match st with
  | (groups, none) => (groups, some ([hit], hit.2.2))
  | (groups, some (pending, pendingLastColumn)) =>
    if pendingLastColumn + MARGIN ≥ hit.2.1 then
      (groups, some (pending ++ [hit], max pendingLastColumn hit.2.2))
    else
      (groups ++ [pending], some ([hit], hit.2.2))

/-- The groups of hit windows formed by `group_hit_windows` before the noise
cap: sort by `first_column` (Python's stable sort), walk with the margin
rule, then close the final pending group. -/
def windowGroups (hitWindows : List HitWindow) : List (List HitWindow) :=
  let sorted := hitWindows.mergeSort (fun a b => a.2.1 ≤ b.2.1)
  let st := sorted.foldl groupWalkStep ([], none)
  match st.2 with
  | none => st.1
  | some (pending, _) => st.1 ++ [pending]

/-- hit_info.py `group_hit_windows`: build one `HitInfo` per margin-group;
if more than `max_groups = 1000` groups remain, merge neighbours whose gap is
at most the `(n − max_groups)`-th smallest inter-group distance. -/
def groupHitWindows (hitWindows : List HitWindow) (coarseChannel ccSize : ℕ) : List HitInfo :=
  let groups := (windowGroups hitWindows).map
    (fun g => HitInfo.fromHitWindows g coarseChannel ccSize)
  let maxGroups := 1000
  if groups.length > maxGroups then
    let distances := (groups.zip groups.tail).map (fun p => p.1.distance p.2)
    let sortedDistances := distances.mergeSort (fun a b => a ≤ b)
    let threshold := sortedDistances.getD (sortedDistances.length - maxGroups) 0
    match groups with
    | [] => []
    | g0 :: rest =>
      let merged := rest.foldl
        (fun (st : List HitInfo × HitInfo) g =>
          if st.2.distance g ≤ threshold then (st.1, st.2.join g) else (st.1 ++ [st.2], g))
        ([], g0)
      merged.1 ++ [merged.2]
  else groups

/-! ## Serialization (hit_info.py to_plain/from_plain, hit_map.py, event.py) -/

/-- One serialized hit record (the `HitInfo` avro schema): columns are
absolute (file-relative); the float fields are modelled exactly. -/
structure PlainHit where
  firstColumn : ℕ
  lastColumn : ℕ
  driftRate : ℚ
  driftStart : ℚ
  snr : ℚ
  mse : ℚ
  area : ℚ
deriving DecidableEq

/-- `HitInfo.to_plain`: add the coarse-channel offset to the columns; the
assert `self.drift_rate is not None` (and the schema's requirement that every
float field is a number) is modelled by returning `none` when the fit fields
are unset. -/
def hitInfoToPlain (h : HitInfo) : Option PlainHit :=
  match h.driftRate, h.driftStart, h.snr, h.mse, h.area with
  | some dr, some ds, some s, some m, some a =>
    some { firstColumn := h.offset + h.firstColumn, lastColumn := h.offset + h.lastColumn,
           driftRate := dr, driftStart := ds, snr := s, mse := m, area := a }
  | _, _, _, _, _ => none

/-- `HitInfo.from_plain`: recover the coarse channel and the channel-relative
columns from the absolute ones (`%`, `//` on nonnegative ints). -/
def hitInfoFromPlain (p : PlainHit) (coarseChannelSize : ℕ) : HitInfo :=
  let firstColumn := p.firstColumn % coarseChannelSize
  let offset := p.firstColumn - firstColumn
  { coarseChannel := offset / coarseChannelSize
    coarseChannelSize := coarseChannelSize
    firstColumn := firstColumn
    lastColumn := p.lastColumn - offset
    driftRate := some p.driftRate
    driftStart := some p.driftStart
    snr := some p.snr
    mse := some p.mse
    area := some p.area }

/-- hit_map.py `HitMap`.  `source_name` is read off hit maps by `Event`
although `from_h5_file`/`from_plain` never set it; it is modelled as a plain
field. -/
structure HitMap where
  h5Filename : String
  sourceName : String := ""
  fch1 : ℚ := 0
  foff : ℚ := 0
  nchans : ℕ := 0
  tstart : ℚ := 0
  tsamp : ℚ := 0
  nsamples : ℕ := 0
  coarseChannels : ℕ := 1
  hits : List HitInfo := []
deriving DecidableEq

instance : Inhabited HitMap := ⟨{ h5Filename := "" }⟩

/-- The serialized form of a hit map (the `HitMap` avro schema). -/
structure PlainHitMap where
  h5Filename : String
  fch1 : ℚ
  foff : ℚ
  nchans : ℕ
  tstart : ℚ
  tsamp : ℚ
  nsamples : ℕ
  coarseChannels : ℕ
  hits : List PlainHit
deriving DecidableEq

/-- Convert a whole list, failing as soon as one element fails (the list
comprehensions over `to_plain` in the source). -/
def optionMapList {α β : Type} (f : α → Option β) : List α → Option (List β)
  | [] => some []
  | x :: xs =>
    match f x, optionMapList f xs with
    | some y, some ys => some (y :: ys)
    | _, _ => none

/-- `HitMap.to_plain`: metadata fields plus one plain record per hit;
fails when some hit cannot be serialized (`HitInfo.to_plain` assertion). -/
def hitMapToPlain (m : HitMap) : Option PlainHitMap :=
  (optionMapList hitInfoToPlain m.hits).map
    (fun hs => { h5Filename := m.h5Filename, fch1 := m.fch1, foff := m.foff, nchans := m.nchans,
                 tstart := m.tstart, tsamp := m.tsamp, nsamples := m.nsamples,
                 coarseChannels := m.coarseChannels, hits := hs })

/-- `HitMap.from_plain` as written in the source: it calls
`HitInfo.from_plain(p)` without the required `coarse_channel_size` argument,
which raises `TypeError` as soon as one hit record must be converted, so
deserialisation only succeeds for an empty hit list (modelled as `none`
otherwise). -/
def hitMapFromPlain (p : PlainHitMap) : Option HitMap :=
  match p.hits with
  | [] => some { h5Filename := p.h5Filename, fch1 := p.fch1, foff := p.foff, nchans := p.nchans,
                 tstart := p.tstart, tsamp := p.tsamp, nsamples := p.nsamples,
                 coarseChannels := p.coarseChannels, hits := [] }
  | _ :: _ => none

/-- config.py / hit_map.py path roots (the `os.path.exists` probe and
`expanduser` are not modelled; the literal values are irrelevant to the
theorems). -/
def H5_ROOT : String := "/datax/dibas"

/-- hit_map.py `HIT_MAP_ROOT`. -/
def HIT_MAP_ROOT : String := "~/hitmaps"

/-- hit_map.py `make_hit_map_filename`: replace the front `H5_ROOT` by
`HIT_MAP_ROOT` and the trailing `.h5` by `.hitmap`. -/
def makeHitMapFilename (h5Filename : String) : String :=
  (HIT_MAP_ROOT ++ h5Filename.drop H5_ROOT.length).dropRight 3 ++ ".hitmap"

/-- The visible state of one output file: `open(.., "wb")` first leaves a
half-written (partial) file, a completed write leaves a whole file. -/
inductive FileState where
  | halfWritten
  | written
deriving DecidableEq

/-- A file system: a map from paths to file states. -/
def FS : Type := String → Option FileState

/-- Update one path of the file system. -/
def FS.set (fs : FS) (p : String) (v : Option FileState) : FS :=
  fun q => if q = p then v else fs q

/-- The empty file system. -/
def emptyFS : FS := fun _ => none

/-- hit_map.py `HitMap.save`: compute the hit-map path, serialize with
`to_plain`, then open the output file and write it.  `writerOk` stands for
whether the avro writer succeeds; when it raises, `HitMap.save` has no
handler, so the half-written file stays behind.  Errors carry the file
system visible when they propagate.  (The path-shape asserts of
`make_hit_map_filename` — `.h5` suffix, `H5_ROOT` prefix — are string
hygiene checks not modelled here; string primitives are kept opaque.) -/
def hitMapSave (writerOk : Bool) (m : HitMap) (fs : FS) : Except (String × FS) FS :=
  let path := makeHitMapFilename m.h5Filename
  match hitMapToPlain m with
  | none => .error ("AssertionError", fs)
  | some _plain =>
    let fsOpen := fs.set path (some .halfWritten)
    if writerOk then .ok (fsOpen.set path (some .written))
    else .error ("write error", fsOpen)

/-- event.py `Event` (the fields used by serialization and scoring; the hit
maps back-pointer and lazily populated chunks are not modelled). -/
structure Event where
  hits : List (Option HitInfo)
  h5Filenames : List String := []
  sourceName : String := ""
  fch1 : ℚ := 0
  foff : ℚ := 0
  nchans : ℕ := 0
  tstarts : List ℚ := []
  coarseChannels : ℕ := 1
deriving DecidableEq

/-- The serialized form of an event (the `Event` avro schema). -/
structure PlainEvent where
  h5Filenames : List String
  sourceName : String
  fch1 : ℚ
  foff : ℚ
  nchans : ℕ
  tstarts : List ℚ
  coarseChannels : ℕ
  hits : List (Option PlainHit)
deriving DecidableEq

/-- `Event.to_plain`: null hits stay null, every other hit must serialize. -/
def eventToPlain (e : Event) : Option PlainEvent :=
  (optionMapList (fun oh =>
      match oh with
      | none => some none
      | some h => (hitInfoToPlain h).map some) e.hits).map
    (fun phits => { h5Filenames := e.h5Filenames, sourceName := e.sourceName, fch1 := e.fch1,
                    foff := e.foff, nchans := e.nchans, tstarts := e.tstarts,
                    coarseChannels := e.coarseChannels, hits := phits })

/-- event.py `Event.save_list`: convert every event with `to_plain` (before
the try block: a conversion error touches no file), then open the output
file and write; if the avro writer raises, the file is removed
(`os.remove`) before the exception propagates.  (The `.events`-suffix
assert is a string hygiene check not modelled here.) -/
def saveList (writerOk : Bool) (events : List Event) (filename : String) (fs : FS) :
    Except (String × FS) FS :=
  match optionMapList eventToPlain events with
  | none => .error ("AssertionError", fs)
  | some _plain =>
    let fsOpen := fs.set filename (some .halfWritten)
    if writerOk then .ok (fsOpen.set filename (some .written))
    else .error ("serialization error", fsOpen.set filename none)

/-- A concrete hit map with one fully fitted hit under the expected roots. -/
def cexHitMap : HitMap :=
  { h5Filename := "/datax/dibas/sess/a.h5"
    nchans := 100
    coarseChannels := 1
    hits := [{ coarseChannel := 0, coarseChannelSize := 100, firstColumn := 5, lastColumn := 9,
               driftRate := some 1, driftStart := some 5, snr := some 10, mse := some 0,
               area := some 12 }] }

/-- A hit map holding a joined hit, as produced by the event assembler. -/
def joinedHitMap : HitMap :=
  { h5Filename := "/datax/dibas/sess/b.h5"
    nchans := 100
    coarseChannels := 1
    hits := [HitInfo.join
      { coarseChannel := 0, coarseChannelSize := 100, firstColumn := 1, lastColumn := 2 }
      { coarseChannel := 0, coarseChannelSize := 100, firstColumn := 4, lastColumn := 6 }] }

/-! ## Event scoring and assembly (event.py) -/

/-- event.py `NOTCH_FILTERS` (MHz ranges, specific to Green Bank). -/
def NOTCH_FILTERS : List (ℚ × ℚ) := [(1200, 1340), (2300, 2360)]

/-- `Event.on_hits`: the non-null hits at even cadence slots. -/
def Event.onHits (e : Event) : List HitInfo :=
  e.hits.enum.filterMap (fun p =>
    match p.2 with
    | some h => if p.1 % 2 = 0 then some h else none
    | none => none)

/-- `Event.off_hits`: the non-null hits at odd cadence slots. -/
def Event.offHits (e : Event) : List HitInfo :=
  e.hits.enum.filterMap (fun p =>
    match p.2 with
    | some h => if p.1 % 2 = 1 then some h else none
    | none => none)

/-- `Event.combined_snr`: `sum(hit.snr for hit in on_hits) / 3` minus the
maximum of the off-hit snrs and 0 (`max([...] + [0])`).  The divisor is the
literal 3, whatever the number of on-hits.  In the source the snr fields must
be numbers (fitted hits); `getD 0` only covers the case the source would
crash on. -/
def Event.combinedSnr (e : Event) : ℚ :=
  (e.onHits.map (fun h => h.snr.getD 0)).sum / 3 -
    (e.offHits.map (fun h => h.snr.getD 0)).foldr max 0

/-- `Event.total_columns`: combined column span of the on-hits (0 when there
are none). -/
def Event.totalColumns (e : Event) : ℤ :=
  if e.onHits.isEmpty then 0
  else ((e.onHits.map (fun h => (h.lastColumn : ℤ))).max?.getD 0) -
    ((e.onHits.map (fun h => (h.firstColumn : ℤ))).min?.getD 0) + 1

/-- `Event.first_column`: minimum first column over the non-null hits (junk 0
when all slots are null, where Python `min` raises; the `Event` constructor
forbids that case). -/
def Event.firstColumnD (e : Event) : ℕ :=
  ((e.hits.filterMap id).map (fun h => h.firstColumn)).min?.getD 0

/-- `Event.last_column`: maximum last column over the non-null hits. -/
def Event.lastColumnD (e : Event) : ℕ :=
  ((e.hits.filterMap id).map (fun h => h.lastColumn)).max?.getD 0

/-- `Event.coarse_channel`, set by the constructor from the first non-null
hit. -/
def Event.coarseChannel (e : Event) : ℕ :=
  ((e.hits.filterMap id).map (fun h => h.coarseChannel)).headD 0

/-- `Event.offset`: `coarse_channel * (nchans // coarse_channels)`. -/
def Event.offset (e : Event) : ℕ :=
  e.coarseChannel * (e.nchans / e.coarseChannels)

/-- `Event.frequency_range`: frequencies of the first and last column. -/
def Event.frequencyRange (e : Event) : ℚ × ℚ :=
  (e.fch1 + ((e.offset + e.firstColumnD : ℕ) : ℚ) * e.foff,
   e.fch1 + ((e.offset + e.lastColumnD : ℕ) : ℚ) * e.foff)

/-- The notch-filter test of `Event.score`: both endpoints of the frequency
range lie inside a single configured notch range. -/
def Event.notched (e : Event) : Bool :=
  NOTCH_FILTERS.any (fun nf =>
    decide (nf.1 ≤ e.frequencyRange.1) && decide (e.frequencyRange.1 ≤ nf.2) &&
    decide (nf.1 ≤ e.frequencyRange.2) && decide (e.frequencyRange.2 ≤ nf.2))

/-- event.py `Event.score`, with the checks in source order. -/
def Event.score (e : Event) : ℚ :=
  if e.totalColumns ≤ 3 then 0
  else if e.notched then 0
  else if 300 < e.totalColumns then 0
  else if e.onHits.length < 2 then 0
  else if 1 < e.offHits.length then 0
  else if e.combinedSnr < 2 then 0
  else e.combinedSnr

/-- The combined snr as the spec's words describe it: the mean of the
on-target snrs minus `max(0, max off snr)`. -/
def specCombinedSnr (e : Event) : ℚ :=
  (e.onHits.map (fun h => h.snr.getD 0)).sum / (e.onHits.length : ℚ) -
    max 0 ((e.offHits.map (fun h => h.snr.getD 0)).foldr max 0)

/-- A fitted hit for the concrete scoring examples. -/
def cexHit (fc lc : ℕ) (s : ℚ) : HitInfo :=
  { coarseChannel := 0, coarseChannelSize := 10000, firstColumn := fc, lastColumn := lc,
    driftRate := some 0, driftStart := some 0, snr := some s, mse := some 0, area := some 16 }

/-- An event with exactly two on-hits (slots 0 and 2), each with snr 3. -/
def cexEventTwoOn : Event :=
  { hits := [some (cexHit 0 10 3), none, some (cexHit 0 10 3), none, none, none],
    nchans := 10000, coarseChannels := 1 }

/-! ## Event assembly (event.py: Event.find_events) -/

/-- hit_map.py `chunk_size` (the h5 file's `nchans // coarse_channels`). -/
def HitMap.chunkSize (m : HitMap) : ℕ := m.nchans / m.coarseChannels

/-- hit_map.py `hits_for_chunk` (without chunk attachment): the hit-listing
method `HitMap` actually defines.  `Event.find_events` does not call it: it
calls the nonexistent name `hits_for_coarse_channel` (see
`hitsForCoarseChannel`). -/
def hitsForChunk (m : HitMap) (i : ℕ) : List HitInfo :=
  m.hits.filter (fun h =>
    decide (m.chunkSize * i ≤ h.firstColumn) && decide (h.lastColumn < m.chunkSize * i + m.chunkSize))

/-- The Python exception raised by the attribute lookup at event.py line
257. -/
def attributeErrorMsg : String :=
  "AttributeError: 'HitMap' object has no attribute 'hits_for_coarse_channel'"

/-- The Python exception raised by the call at event.py line 298. -/
def typeErrorMsg : String :=
  "TypeError: join() got an unexpected keyword argument 'after_linear_fitting'"

/-- The Python exception raised by `hit_maps[0]` on an empty list
(event.py line 247). -/
def indexErrorMsg : String := "IndexError: list index out of range"

/-- The call `hit_map.hits_for_coarse_channel(coarse_channel,
attach_chunk=False)` in `Event.find_events` (event.py line 257): `HitMap`
defines no method of that name (only `hits_for_chunk`, hit_map.py line 217,
and nothing in the repository aliases it), so the attribute lookup raises
AttributeError for every hit map.  The arguments mirror the call site. -/
def hitsForCoarseChannel (m : HitMap) (c : ℕ) : Except String (List HitInfo) :=
  .error attributeErrorMsg

/-- The hit-collection loop of `Event.find_events`: for each enumerated hit
map, ask it for the channel's hits and label them with the map index.  The
first iteration already raises (see `hitsForCoarseChannel`), so this
succeeds only on an empty hit-map list. -/
def collectLabeledHits : List (ℕ × HitMap) → ℕ → Except String (List (ℕ × HitInfo))
  | [], _ => .ok []
  | (i, m) :: rest, c =>
    match hitsForCoarseChannel m c with
    | .error e => .error e
    | .ok hits =>
      match collectLabeledHits rest c with
      | .error e => .error e
      | .ok tailLabeled => .ok (hits.map (fun h => (i, h)) ++ tailLabeled)

/-- One step of the labeled-hit grouping walk in `Event.find_events`:
carry the closed groups, the current group and `plausible_next_column`. -/
def eventWalkStep (st : List (List (ℕ × HitInfo)) × List (ℕ × HitInfo) × ℕ)
    (ih : ℕ × HitInfo) : List (List (ℕ × HitInfo)) × List (ℕ × HitInfo) × ℕ :=
  let (groups, current, pnc) := st
  if current.isEmpty then (groups, [ih], ih.2.plausibleNextColumn)
  else if ih.2.firstColumn ≤ pnc then (groups, current ++ [ih], max pnc ih.2.plausibleNextColumn)
  else (groups ++ [current], [ih], ih.2.plausibleNextColumn)

/-- Collapse one group to the per-map hit slots, starting from all-`None`
slots.  On a same-map collision the source calls
`hits[index].join(hit, after_linear_fitting=True)` (event.py line 298), but
`HitInfo.join` (hit_info.py line 217) accepts no such keyword: Python raises
TypeError. -/
def eventSlotsFrom (hs : List (Option HitInfo)) :
    List (ℕ × HitInfo) → Except String (List (Option HitInfo))
  | [] => .ok hs
  | ih :: rest =>
    match hs.getD ih.1 none with
    | none => eventSlotsFrom (hs.set ih.1 (some ih.2)) rest
    | some _prev => .error typeErrorMsg

/-- The per-map slots of one group (`hits = [None] * len(hit_maps)` then the
collision-checking fill loop). -/
def eventSlots (numMaps : ℕ) (g : List (ℕ × HitInfo)) :
    Except String (List (Option HitInfo)) :=
  eventSlotsFrom (List.replicate numMaps none) g

/-- Build the events of the grouped hits in group order: fill the slots
(which can raise, see `eventSlots`), drop groups with at most one non-null
slot, and populate the event metadata from the hit maps. -/
def buildEvents (hitMaps : List HitMap) : List (List (ℕ × HitInfo)) →
    Except String (List Event)
  | [] => .ok []
  | g :: rest =>
    match eventSlots hitMaps.length g with
    | .error e => .error e
    | .ok slots =>
      match buildEvents hitMaps rest with
      | .error e => .error e
      | .ok tailEvents =>
        if (slots.filterMap id).length ≤ 1 then .ok tailEvents
        else
          .ok ({ hits := slots
                 h5Filenames := hitMaps.map (fun m => m.h5Filename)
                 sourceName := (hitMaps.headD default).sourceName
                 fch1 := (hitMaps.headD default).fch1
                 foff := (hitMaps.headD default).foff
                 nchans := (hitMaps.headD default).nchans
                 tstarts := hitMaps.map (fun m => m.tstart)
                 coarseChannels := (hitMaps.headD default).coarseChannels } :: tailEvents)

/-- event.py `Event.find_events` for one coarse channel, including its
failure behavior: collect the labeled hits (which raises AttributeError for
every nonempty hit-map list, see `hitsForCoarseChannel`), sort by
`first_column` (Python's stable sort), group by the `plausible_next_column`
walk, keep groups with more than one entry, build the events (which can
raise TypeError, see `eventSlots`), then keep the 50 best by score and
yield in ascending `first_column` order.  Only the empty hit-map list
reaches the yield stage, with an empty stream. -/
def findEventsChannel (hitMaps : List HitMap) (c : ℕ) : Except String (List Event) :=
  match collectLabeledHits hitMaps.enum c with
  | .error e => .error e
  | .ok labeled =>
    let sortedLabeled := labeled.mergeSort (fun a b => a.2.firstColumn ≤ b.2.firstColumn)
    let st := sortedLabeled.foldl eventWalkStep ([], [], 0)
    let groups0 := if st.2.1.isEmpty then st.1 else st.1 ++ [st.2.1]
    let groups := groups0.filter (fun g => g.length > 1)
    match buildEvents hitMaps groups with
    | .error e => .error e
    | .ok events =>
      let ranked := events.mergeSort (fun a b => Event.score b ≤ Event.score a)
      .ok ((ranked.take 50).mergeSort (fun a b => a.firstColumnD ≤ b.firstColumnD))

/-- The channel loop of `Event.find_events` with `coarse_channel=None`:
concatenate the per-channel streams in ascending channel order, propagating
the first exception. -/
def concatChannels (hitMaps : List HitMap) : List ℕ → Except String (List Event)
  | [] => .ok []
  | c :: rest =>
    match findEventsChannel hitMaps c with
    | .error e => .error e
    | .ok events =>
      match concatChannels hitMaps rest with
      | .error e => .error e
      | .ok tailEvents => .ok (events ++ tailEvents)

/-- event.py `Event.find_events` with `coarse_channel=None`: iterate the
channels of `hit_maps[0]` (IndexError on an empty list). -/
def findEventsAll (hitMaps : List HitMap) : Except String (List Event) :=
  match hitMaps with
  | [] => .error indexErrorMsg
  | m0 :: _ => concatChannels hitMaps (List.range m0.coarseChannels)

/-- The hit maps of a concrete cadence: maps 0 and 2 (on-target) share a
weak hit at columns 0..10 (snr 9) and a strong hit at columns 500..520
(snr 30); the other maps are empty. -/
def cexMapA : HitMap :=
  { h5Filename := "a.h5", nchans := 10000, coarseChannels := 1,
    hits := [cexHit 0 10 9, cexHit 500 520 30] }

/-- An empty hit map of the concrete cadence. -/
def cexMapB : HitMap := { h5Filename := "b.h5", nchans := 10000, coarseChannels := 1, hits := [] }

/-- The concrete cadence of six hit maps. -/
def cexMaps : List HitMap := [cexMapA, cexMapB, cexMapA, cexMapB, cexMapB, cexMapB]

/-! ## Theorems -/

theorem cumsumFrom_length (acc : ℚ) (l : List ℚ) : (cumsumFrom acc l).length = l.length := by
  induction l generalizing acc with
  | nil => rfl
  | cons x xs ih => simp [cumsumFrom, ih]

theorem cumsum_length (l : List ℚ) : (cumsum l).length = l.length := cumsumFrom_length 0 l

theorem cumsumFrom_getElem (acc : ℚ) (l : List ℚ) (i : ℕ) (h : i < (cumsumFrom acc l).length) :
    (cumsumFrom acc l)[i] = acc + ((l.take (i + 1)).sum) := by
  induction l generalizing acc i with
  | nil => simp [cumsumFrom] at h
  | cons x xs ih =>
    cases i with
    | zero => simp [cumsumFrom]
    | succ j =>
      have hj : j < (cumsumFrom (acc + x) xs).length := by
        simpa [cumsumFrom] using h
      simp only [cumsumFrom, List.getElem_cons_succ, List.take_succ_cons, List.sum_cons]
      rw [ih (acc + x) j hj]
      ring

theorem cumsum_getElem (l : List ℚ) (i : ℕ) (h : i < (cumsum l).length) :
    (cumsum l)[i] = ((l.take (i + 1)).sum) := by
  show (cumsumFrom 0 l)[i] = _
  rw [cumsumFrom_getElem 0 l i h, zero_add]

theorem shiftSub_length (s : List ℚ) (w : ℕ) : (shiftSub s w).length = s.length := by
  simp [shiftSub]

theorem sum_take_sub_sum_take (row : List ℚ) (i j : ℕ) (hij : i ≤ j) :
    (row.take j).sum - (row.take i).sum = ((row.drop i).take (j - i)).sum := by
  have h : row.take j = row.take i ++ (row.drop i).take (j - i) := by
    have := List.take_add row i (j - i)
    rw [Nat.add_sub_cancel' hij] at this
    exact this
  rw [h, List.sum_append]
  ring

theorem rowWindowMean_eq_spec (w : ℕ) (row : List ℚ) (hw : 1 ≤ w) (hcols : w ≤ row.length) :
    rowWindowMean w row = windowMeanSpec w row := by
  have hs : (shiftSub (cumsum row) w).length = row.length := by
    rw [shiftSub_length, cumsum_length]
  apply List.ext_getElem
  · simp only [rowWindowMean, windowMeanSpec, List.length_map, List.length_drop, hs,
      List.length_range]
    omega
  · intro n h₁ h₂
    simp only [rowWindowMean, List.getElem_map, List.getElem_drop] at h₁ ⊢
    simp only [windowMeanSpec, List.getElem_map, List.getElem_range]
    have hlen : w - 1 + n < (shiftSub (cumsum row) w).length := by
      simp only [List.length_map, List.length_drop] at h₁
      omega
    have hcl : w - 1 + n < (cumsum row).length := by
      rwa [shiftSub_length] at hlen
    have hget : (shiftSub (cumsum row) w)[w - 1 + n] =
        if w - 1 + n < w then (cumsum row).getD (w - 1 + n) 0
        else (cumsum row).getD (w - 1 + n) 0 - (cumsum row).getD (w - 1 + n - w) 0 := by
      simp only [shiftSub, List.getElem_map, List.getElem_range]
    congr 1
    rw [hget]
    by_cases hn : n = 0
    · subst hn
      rw [if_pos (by omega)]
      rw [List.getD_eq_getElem _ _ hcl, cumsum_getElem row _ hcl]
      have : w - 1 + 0 + 1 = w := by omega
      rw [this]
      simp
    · rw [if_neg (by omega)]
      have hcl2 : w - 1 + n - w < (cumsum row).length := by omega
      rw [List.getD_eq_getElem _ _ hcl, List.getD_eq_getElem _ _ hcl2,
        cumsum_getElem row _ hcl, cumsum_getElem row _ hcl2]
      have h1 : w - 1 + n + 1 = n + w := by omega
      have h2 : w - 1 + n - w + 1 = n := by omega
      rw [h1, h2]
      have := sum_take_sub_sum_take row n (n + w) (by omega)
      rw [Nat.add_sub_cancel_left] at this
      exact this

/-- C8: the prefix-sum window-mean kernel has shape `(rows, cols − w + 1)` and
each entry `(r, i)` is the arithmetic mean of `A[r, i..i+w−1]`: the optimised
cumulative-sum implementation equals the naive reference definition. -/
theorem calculateWindowMean_refines (a : List (List ℚ)) (w cols : ℕ)
    (hw : 1 ≤ w) (hcols : w ≤ cols) (hrows : ∀ r ∈ a, r.length = cols) :
    calculateWindowMean a w = calculateWindowMeanSpec a w ∧
    (calculateWindowMean a w).length = a.length ∧
    ∀ r ∈ calculateWindowMean a w, r.length = cols - w + 1 := by
  refine ⟨?_, by simp [calculateWindowMean], ?_⟩
  · unfold calculateWindowMean calculateWindowMeanSpec
    apply List.map_congr_left
    intro r hr
    exact rowWindowMean_eq_spec w r hw (by rw [hrows r hr]; exact hcols)
  · intro r hr
    simp only [calculateWindowMean, List.mem_map] at hr
    obtain ⟨row, hrow, rfl⟩ := hr
    have hlen : row.length = cols := hrows row hrow
    simp only [rowWindowMean, List.length_map, List.length_drop, shiftSub_length, cumsum_length,
      hlen]
    omega

/-- Witness for C8 at a concrete input. -/
theorem calculateWindowMean_refines_witness :
    (1 ≤ 2 ∧ 2 ≤ 3 ∧ ∀ r ∈ [[(1 : ℚ), 2, 3]], r.length = 3) ∧
    (calculateWindowMean [[(1 : ℚ), 2, 3]] 2 = calculateWindowMeanSpec [[(1 : ℚ), 2, 3]] 2 ∧
      (calculateWindowMean [[(1 : ℚ), 2, 3]] 2).length = 1 ∧
      ∀ r ∈ calculateWindowMean [[(1 : ℚ), 2, 3]] 2, r.length = 3 - 2 + 1) :=
  ⟨⟨by decide, by decide, by decide⟩,
    calculateWindowMean_refines [[(1 : ℚ), 2, 3]] 2 3 (by decide) (by decide) (by decide)⟩

/-- C9: every std-dev entry produced by the window-statistics kernel is at
least `0.01` (and in particular nonzero, so the divisions by the deviation
array in the SNR kernels have nonzero denominators). -/
theorem calculateWindowStats_dev_pos (a : List (List ℚ)) (w : ℕ) (hw : 2 ≤ w) :
    ∀ dr ∈ (calculateWindowStats a w).2, ∀ d ∈ dr, 1 / 100 ≤ d ∧ d ≠ 0 := by
  intro dr hdr d hd
  simp only [calculateWindowStats, List.mem_map] at hdr
  obtain ⟨vr, _, rfl⟩ := hdr
  simp only [List.mem_map] at hd
  obtain ⟨v, _, rfl⟩ := hd
  refine ⟨le_max_right _ _, ?_⟩
  have hpos : (0 : ℝ) < max (Real.sqrt (v : ℝ)) (1 / 100) :=
    lt_of_lt_of_le (by norm_num) (le_max_right _ _)
  exact ne_of_gt hpos

/-- Witness for C9 at a concrete input. -/
theorem calculateWindowStats_dev_pos_witness :
    2 ≤ 2 ∧ ∀ dr ∈ (calculateWindowStats [[(1 : ℚ), 2, 3]] 2).2, ∀ d ∈ dr, 1 / 100 ≤ d ∧ d ≠ 0 :=
  ⟨by decide, calculateWindowStats_dev_pos [[(1 : ℚ), 2, 3]] 2 (by decide)⟩

theorem selRow_maskAndRow (t : ℝ) (dr : List ℝ) (mr : List Bool) :
    selRow dr (maskAndRow t mr dr) = (selRow dr mr).filter (fun x => decide (x < t)) := by
  induction dr generalizing mr with
  | nil => simp [selRow, maskAndRow]
  | cons x xs ih =>
    cases mr with
    | nil => simp [selRow, maskAndRow]
    | cons m ms =>
      cases m with
      | false =>
        simpa [selRow, maskAndRow, List.zip_cons_cons, List.zipWith_cons_cons,
          List.filterMap_cons] using ih ms
      | true =>
        by_cases hx : x < t
        · simpa [selRow, maskAndRow, List.zip_cons_cons, List.zipWith_cons_cons,
            List.filterMap_cons, List.filter_cons, hx] using ih ms
        · simpa [selRow, maskAndRow, List.zip_cons_cons, List.zipWith_cons_cons,
            List.filterMap_cons, List.filter_cons, hx] using ih ms

theorem selRow_maskAndRow_length_le (t : ℝ) (dr : List ℝ) (mr : List Bool) :
    (selRow dr (maskAndRow t mr dr)).length ≤ (selRow dr mr).length := by
  rw [selRow_maskAndRow]
  exact List.length_filter_le _ _

theorem selectMasked_and_le (t : ℝ) (data : List (List ℝ)) (mask : List (List Bool)) :
    (selectMasked data (mask.zipWith (maskAndRow t) data)).length ≤
      (selectMasked data mask).length := by
  induction data generalizing mask with
  | nil => simp [selectMasked]
  | cons dr drs ih =>
    cases mask with
    | nil => simp [selectMasked]
    | cons mr mrs =>
      simp only [List.zipWith_cons_cons, selectMasked, List.zip_cons_cons, List.flatMap_cons,
        List.length_append]
      have h1 := selRow_maskAndRow_length_le t dr mr
      have h2 := ih mrs
      simp only [selectMasked] at h2
      omega

theorem selectMasked_step_le (alpha : ℝ) (data : List (List ℝ)) (mask : List (List Bool)) :
    (selectMasked data (clipMaskStep alpha data mask)).length ≤
      (selectMasked data mask).length :=
  selectMasked_and_le _ data mask

theorem maskAndRow_subset (t : ℝ) (mr : List Bool) (dr : List ℝ) (j : ℕ)
    (h : (maskAndRow t mr dr).getD j false = true) : mr.getD j false = true := by
  induction mr generalizing dr j with
  | nil => simp [maskAndRow, List.getD] at h
  | cons m ms ih =>
    cases dr with
    | nil => simp [maskAndRow, List.getD] at h
    | cons x xs =>
      cases j with
      | zero =>
        simp only [maskAndRow, List.zipWith_cons_cons, List.getD_cons_zero,
          Bool.and_eq_true] at h
        exact h.1
      | succ k =>
        simp only [maskAndRow, List.zipWith_cons_cons, List.getD_cons_succ] at h ⊢
        exact ih xs k h

theorem zipWith_maskAndRow_subset (t : ℝ) (mask : List (List Bool)) (data : List (List ℝ))
    (i j : ℕ) (h : get2 (mask.zipWith (maskAndRow t) data) i j = true) : get2 mask i j = true := by
  unfold get2 at h ⊢
  induction mask generalizing data i with
  | nil => simp [List.getD] at h
  | cons mr mrs ih =>
    cases data with
    | nil => simp [List.getD] at h
    | cons dr drs =>
      cases i with
      | zero =>
        simp only [List.zipWith_cons_cons, List.getD_cons_zero] at h ⊢
        exact maskAndRow_subset t mr dr j h
      | succ k =>
        simp only [List.zipWith_cons_cons, List.getD_cons_succ] at h ⊢
        exact ih drs k h

theorem clipMaskStep_subset (alpha : ℝ) (data : List (List ℝ)) (mask : List (List Bool))
    (i j : ℕ) (h : get2 (clipMaskStep alpha data mask) i j = true) : get2 mask i j = true :=
  zipWith_maskAndRow_subset _ mask data i j h

theorem clipLoop_terminates_ok (alpha : ℝ) (data : List (List ℝ)) (mask : List (List Bool)) :
    ∃ out, clipLoop alpha data mask = Except.ok out := by
  refine clipLoop.induct alpha data
    (fun m => ∃ out, clipLoop alpha data m = Except.ok out) ?_ ?_ ?_ mask
  · intro m h ih
    rw [clipLoop]
    simp only [dif_pos h]
    exact ih
  · intro m h1 h2
    rw [clipLoop]
    simp only [dif_neg h1, if_pos h2]
    exact ⟨_, rfl⟩
  · intro m h1 h2
    exact absurd (selectMasked_step_le alpha data m) (by omega)

/-- C6: one sigma-clip iteration can only shrink the set of mask-true pixels
(the new mask is the conjunction of the old mask with a threshold predicate),
and the loop of `HitInfo.linear_fit` always terminates in the
converged branch: the `ValueError("coding error")` branch is unreachable. -/
theorem sigmaClip_no_growth (alpha : ℝ) (data : List (List ℝ)) (mask : List (List Bool)) :
    (∀ i j, get2 (clipMaskStep alpha data mask) i j = true → get2 mask i j = true) ∧
    ∃ out, clipLoop alpha data mask = Except.ok out :=
  ⟨fun i j h => clipMaskStep_subset alpha data mask i j h,
    clipLoop_terminates_ok alpha data mask⟩

theorem linearFit_skips (alpha : ℝ) (hitWindows : List HitWindow)
    (dataArr : List (List ℝ)) (dataOffset : ℕ) (firstColumn lastColumn : ℕ)
    (h : 1000 ≤ lastColumn - firstColumn) :
    linearFit alpha hitWindows dataArr dataOffset firstColumn lastColumn = none := by
  simp [linearFit, h]

theorem linearFit_fits (alpha : ℝ) (hitWindows : List HitWindow)
    (dataArr : List (List ℝ)) (dataOffset : ℕ) (firstColumn lastColumn : ℕ)
    (h : ¬ 1000 ≤ lastColumn - firstColumn) :
    linearFit alpha hitWindows dataArr dataOffset firstColumn lastColumn ≠ none := by
  unfold linearFit
  simp only [if_neg h]
  intro hnone
  obtain ⟨out, hok⟩ := clipLoop_terminates_ok alpha
    (dataArr.map (fun r => (r.drop (max (firstColumn - MARGIN) 0)).take
      (lastColumn + MARGIN + 1 - max (firstColumn - MARGIN) 0)))
    (initialMask hitWindows
      (dataArr.map (fun r => (r.drop (max (firstColumn - MARGIN) 0)).take
        (lastColumn + MARGIN + 1 - max (firstColumn - MARGIN) 0)))
      (max (firstColumn - MARGIN) 0))
  rw [hok] at hnone
  obtain ⟨m, mean, std⟩ := out
  simp at hnone

/-- C7 (amended): `HitInfo.linear_fit` skips fitting, leaving every fit field
unset, exactly when `last_column − first_column ≥ max_columns = 1000`; for
every narrower hit (hit windows available) the fit is performed and all fit
fields are populated. -/
theorem linearFit_none_iff (alpha : ℝ) (hitWindows : List HitWindow)
    (dataArr : List (List ℝ)) (dataOffset : ℕ) (firstColumn lastColumn : ℕ) :
    linearFit alpha hitWindows dataArr dataOffset firstColumn lastColumn = none ↔
      1000 ≤ lastColumn - firstColumn := by
  by_cases hg : 1000 ≤ lastColumn - firstColumn
  · simp [linearFit_skips alpha hitWindows dataArr dataOffset firstColumn lastColumn hg, hg]
  · simp only [hg, iff_false]
    exact linearFit_fits alpha hitWindows dataArr dataOffset firstColumn lastColumn hg

/-- Counterexample to C7 as stated: for a hit spanning columns 0..990 the
padded region is 1001 > 1000 columns wide, yet `linear_fit` does perform the
fit (the source compares `last_column − first_column`, not the padded
width). -/
theorem linearFit_padded_width_cex :
    1000 < specPaddedWidth 0 990 ∧
    linearFit 3.5 [(0, 0, 0)] [[1, 2]] 0 0 990 ≠ none :=
  ⟨by decide, linearFit_fits 3.5 [(0, 0, 0)] [[1, 2]] 0 0 990 (by omega)⟩

theorem groupWalkStep_pending_nonempty
    (st : List (List HitWindow) × Option (List HitWindow × ℕ)) (hit : HitWindow)
    (hst : (∀ g ∈ st.1, g ≠ []) ∧ ∀ p c, st.2 = some (p, c) → p ≠ []) :
    (∀ g ∈ (groupWalkStep st hit).1, g ≠ []) ∧
      ∀ p c, (groupWalkStep st hit).2 = some (p, c) → p ≠ [] := by
  obtain ⟨groups, pend⟩ := st
  match pend with
  | none =>
    refine ⟨hst.1, ?_⟩
    intro p c hp
    simp only [groupWalkStep, Option.some.injEq, Prod.mk.injEq] at hp
    rcases hp with ⟨rfl, -⟩
    simp
  | some (pending, plc) =>
    by_cases hcond : plc + MARGIN ≥ hit.2.1
    · refine ⟨by simpa [groupWalkStep, hcond] using hst.1, ?_⟩
      intro p c hp
      simp only [groupWalkStep, if_pos hcond, Option.some.injEq, Prod.mk.injEq] at hp
      rcases hp with ⟨rfl, -⟩
      simp
    · constructor
      · intro g hg
        simp only [groupWalkStep, if_neg hcond, List.mem_append, List.mem_singleton] at hg
        rcases hg with hg | rfl
        · exact hst.1 g hg
        · exact hst.2 g _ rfl
      · intro p c hp
        simp only [groupWalkStep, if_neg hcond, Option.some.injEq, Prod.mk.injEq] at hp
        rcases hp with ⟨rfl, -⟩
        simp

theorem windowGroups_nonempty (hitWindows : List HitWindow) :
    ∀ g ∈ windowGroups hitWindows, g ≠ [] := by
  unfold windowGroups
  generalize hitWindows.mergeSort (fun a b => a.2.1 ≤ b.2.1) = sorted
  have key : ∀ (st : List (List HitWindow) × Option (List HitWindow × ℕ)),
      ((∀ g ∈ st.1, g ≠ []) ∧ ∀ p c, st.2 = some (p, c) → p ≠ []) →
      (∀ g ∈ (sorted.foldl groupWalkStep st).1, g ≠ []) ∧
        ∀ p c, (sorted.foldl groupWalkStep st).2 = some (p, c) → p ≠ [] := by
    induction sorted with
    | nil => intro st hst; simpa using hst
    | cons hit rest ih =>
      intro st hst
      simpa using ih (groupWalkStep st hit) (groupWalkStep_pending_nonempty st hit hst)
  have base : (∀ g ∈ ([] : List (List HitWindow)), g ≠ []) ∧
      ∀ p c, (none : Option (List HitWindow × ℕ)) = some (p, c) → p ≠ [] := by
    constructor
    · intro g hg; simp at hg
    · intro p c hp; simp at hp
  obtain ⟨h1, h2⟩ := key ([], none) base
  intro g hg
  dsimp only at hg
  cases hsnd : (sorted.foldl groupWalkStep ([], none)).2 with
  | none =>
    rw [hsnd] at hg
    exact h1 g hg
  | some pc =>
    rw [hsnd] at hg
    simp only [List.mem_append, List.mem_singleton] at hg
    rcases hg with hg | rfl
    · exact h1 g hg
    · exact h2 pc.1 pc.2 (by rw [hsnd])

/-- C4 (amended): when the noise cap does not trigger, every hit returned by
`group_hit_windows` carries the (nonempty) list of hit windows of its group;
no group is discarded for containing fewer than three hit windows. -/
theorem groupHitWindows_no_small_discard (hitWindows : List HitWindow)
    (coarseChannel ccSize : ℕ) (hcap : (windowGroups hitWindows).length ≤ 1000) :
    ∀ h ∈ groupHitWindows hitWindows coarseChannel ccSize,
      ∃ g ∈ windowGroups hitWindows,
        g ≠ [] ∧ h = HitInfo.fromHitWindows g coarseChannel ccSize ∧
        h.hitWindows = some g ∧ 1 ≤ g.length := by
  intro h hmem
  unfold groupHitWindows at hmem
  rw [if_neg (by simpa using hcap)] at hmem
  simp only [List.mem_map] at hmem
  obtain ⟨g, hg, rfl⟩ := hmem
  have hne := windowGroups_nonempty hitWindows g hg
  exact ⟨g, hg, hne, rfl, rfl, by cases g with | nil => exact absurd rfl hne | cons a l => simp⟩

unseal List.merge List.mergeSort in
/-- Witness for C4's amended theorem at a concrete input. -/
theorem groupHitWindows_no_small_discard_witness :
    (windowGroups [(0, 5, 6)]).length ≤ 1000 ∧
    ∀ h ∈ groupHitWindows [(0, 5, 6)] 0 100,
      ∃ g ∈ windowGroups [(0, 5, 6)],
        g ≠ [] ∧ h = HitInfo.fromHitWindows g 0 100 ∧
        h.hitWindows = some g ∧ 1 ≤ g.length :=
  ⟨by decide, groupHitWindows_no_small_discard [(0, 5, 6)] 0 100 (by decide)⟩

unseal List.merge List.mergeSort in
/-- Counterexample to C4 as stated: a single hit window produces a hit built
from one hit window; groups with fewer than three hit windows are not
discarded. -/
theorem groupHitWindows_single_window_cex :
    groupHitWindows [(0, 5, 6)] 0 100 =
      [{ coarseChannel := 0, coarseChannelSize := 100, firstColumn := 5, lastColumn := 6,
         hitWindows := some [(0, 5, 6)] }] ∧
    ((groupHitWindows [(0, 5, 6)] 0 100).headD default).hitWindows.map List.length = some 1 := by
  constructor <;> decide

theorem optionMapList_eq_none {α β : Type} (f : α → Option β) (l : List α) (x : α)
    (hx : x ∈ l) (hfx : f x = none) : optionMapList f l = none := by
  induction l with
  | nil => simp at hx
  | cons y ys ih =>
    rcases List.mem_cons.mp hx with rfl | hys
    · simp [optionMapList, hfx]
    · cases hy : f y with
      | none => simp [optionMapList, hy]
      | some py => simp [optionMapList, hy, ih hys]

/-- C3 (amended): an exception while serialising during an event-list write
(`Event.save_list`) leaves no partial file visible: the conversion errors
fire before the file is opened, and a writer error removes the file before
propagating.  (`HitMap.save` has no such protection; see the
counterexample.) -/
theorem saveList_no_partial (writerOk : Bool) (events : List Event) (filename : String)
    (fs : FS) (e : String) (fs' : FS) (hpre : fs filename ≠ some FileState.halfWritten)
    (herr : saveList writerOk events filename fs = .error (e, fs')) :
    fs' filename ≠ some FileState.halfWritten := by
  unfold saveList at herr
  cases hplain : optionMapList eventToPlain events with
  | none =>
    rw [hplain] at herr
    simp only [Except.error.injEq, Prod.mk.injEq] at herr
    rw [← herr.2]
    exact hpre
  | some plain =>
    rw [hplain] at herr
    cases writerOk with
    | true => simp at herr
    | false =>
      simp only [Bool.false_eq_true, if_false, Except.error.injEq, Prod.mk.injEq] at herr
      rw [← herr.2]
      simp [FS.set]

/-- Witness for C3's amended theorem: a concrete failing write through
`Event.save_list` leaves the destination without a partial file. -/
theorem saveList_no_partial_witness :
    (emptyFS "a.events" ≠ some FileState.halfWritten) ∧
    ((FS.set (FS.set emptyFS "a.events" (some .halfWritten)) "a.events" none) "a.events" ≠
      some FileState.halfWritten) :=
  ⟨by simp [emptyFS], saveList_no_partial false [] "a.events" emptyFS "serialization error"
    (FS.set (FS.set emptyFS "a.events" (some .halfWritten)) "a.events" none)
    (by simp [emptyFS]) rfl⟩

/-- Counterexample to C3 as stated: a failing avro write inside
`HitMap.save` (which has no try/except) leaves the half-written file visible
at the hit-map path after the exception propagates. -/
theorem hitMapSave_partial_cex :
    hitMapSave false cexHitMap emptyFS =
      .error ("write error",
        FS.set emptyFS (makeHitMapFilename "/datax/dibas/sess/a.h5") (some .halfWritten)) ∧
    (FS.set emptyFS (makeHitMapFilename "/datax/dibas/sess/a.h5") (some .halfWritten))
        (makeHitMapFilename "/datax/dibas/sess/a.h5") = some FileState.halfWritten := by
  constructor
  · rfl
  · simp [FS.set]

/-- C10: serialising a hit map requires every stored hit to carry fit data:
`HitInfo.join` leaves every fit field unset, and if any stored hit has no
`drift_rate` then `HitMap.save` raises the `to_plain` assertion and the file
system is untouched (the hit map is not written). -/
theorem hitMapSave_requires_fit (writerOk : Bool) (m : HitMap) (fs : FS) (h : HitInfo)
    (hmem : h ∈ m.hits) (hdr : h.driftRate = none) :
    (∀ a b : HitInfo, (a.join b).driftRate = none) ∧
    ∃ e, hitMapSave writerOk m fs = .error (e, fs) := by
  refine ⟨fun a b => rfl, ?_⟩
  have hx : hitInfoToPlain h = none := by
    unfold hitInfoToPlain
    rw [hdr]
  have hplain : hitMapToPlain m = none := by
    unfold hitMapToPlain
    rw [optionMapList_eq_none hitInfoToPlain m.hits h hmem hx]
    rfl
  unfold hitMapSave
  rw [hplain]
  exact ⟨"AssertionError", rfl⟩

/-- Witness for C10 at a concrete input: a hit map holding a joined hit is
rejected by `HitMap.save`. -/
theorem hitMapSave_requires_fit_witness :
    ((joinedHitMap.hits.headD default) ∈ joinedHitMap.hits ∧
      (joinedHitMap.hits.headD default).driftRate = none) ∧
    ((∀ a b : HitInfo, (a.join b).driftRate = none) ∧
      ∃ e, hitMapSave true joinedHitMap emptyFS = .error (e, emptyFS)) :=
  ⟨⟨by decide, by decide⟩,
    hitMapSave_requires_fit true joinedHitMap emptyFS (joinedHitMap.hits.headD default)
      (by decide) (by decide)⟩

/-- C1 (amended): for an event with the six cadence slots (all non-null hits
fitted), `score` is 0 exactly when one of the zero conditions holds —
`total_columns ≤ 3`, `total_columns > 300`, both frequency endpoints inside a
single notch range, fewer than 2 on-hits, more than 1 off-hit, or
`combined_snr < 2` — and otherwise `score` returns `combined_snr`, where
`combined_snr` is the sum of the on-hit snrs divided by 3 (not their mean)
minus `max(0, max off snr)`. -/
theorem score_zero_iff (e : Event) (hlen : e.hits.length = 6)
    (hfit : ∀ h ∈ e.hits.filterMap id, h.snr.isSome) :
    (e.score = 0 ↔
      (e.totalColumns ≤ 3 ∨ 300 < e.totalColumns ∨ e.notched = true ∨
        e.onHits.length < 2 ∨ 1 < e.offHits.length ∨ e.combinedSnr < 2)) ∧
    (e.score ≠ 0 → e.score = e.combinedSnr) := by
  constructor
  · constructor
    · intro h0
      unfold Event.score at h0
      split_ifs at h0 with h1 h2 h3 h4 h5 h6
      · exact Or.inl h1
      · exact Or.inr (Or.inr (Or.inl (by simpa using h2)))
      · exact Or.inr (Or.inl h3)
      · exact Or.inr (Or.inr (Or.inr (Or.inl h4)))
      · exact Or.inr (Or.inr (Or.inr (Or.inr (Or.inl h5))))
      · exact Or.inr (Or.inr (Or.inr (Or.inr (Or.inr h6))))
      · exact Or.inr (Or.inr (Or.inr (Or.inr (Or.inr (by rw [h0]; norm_num)))))
    · intro hd
      unfold Event.score
      split_ifs with h1 h2 h3 h4 h5 h6
      · rfl
      · rfl
      · rfl
      · rfl
      · rfl
      · rfl
      · rcases hd with h | h | h | h | h | h
        · exact absurd h h1
        · exact absurd h h3
        · exact absurd h (by simpa using h2)
        · exact absurd h h4
        · exact absurd h h5
        · exact absurd h h6
  · intro hne
    unfold Event.score at hne ⊢
    split_ifs at hne ⊢ with h1 h2 h3 h4 h5 h6
    · exact absurd rfl hne
    · exact absurd rfl hne
    · exact absurd rfl hne
    · exact absurd rfl hne
    · exact absurd rfl hne
    · exact absurd rfl hne
    · rfl

unseal Rat.add Rat.mul Rat.inv Rat.sub in
/-- Counterexample to C1 as stated: with two on-hits of snr 3, none of the
claimed zero conditions (read with the claimed mean-based combined snr)
holds, the mean-based combined snr is 3, yet `score` returns 2 =
`(3 + 3) / 3`: the source divides the on-snr sum by the literal 3, not by the
number of on-hits. -/
theorem score_not_mean_cex :
    cexEventTwoOn.score = 2 ∧ specCombinedSnr cexEventTwoOn = 3 ∧
    ¬ (cexEventTwoOn.totalColumns ≤ 3 ∨ 300 < cexEventTwoOn.totalColumns ∨
       cexEventTwoOn.notched = true ∨ cexEventTwoOn.onHits.length < 2 ∨
       1 < cexEventTwoOn.offHits.length ∨ specCombinedSnr cexEventTwoOn < 2) ∧
    cexEventTwoOn.score ≠ specCombinedSnr cexEventTwoOn := by
  refine ⟨by decide, by decide, ?_, by decide⟩
  intro h
  rcases h with h | h | h | h | h | h <;> revert h <;> decide

unseal Rat.add Rat.mul Rat.inv Rat.sub in
/-- Witness for C1's amended theorem at a concrete event. -/
theorem score_zero_iff_witness :
    (cexEventTwoOn.hits.length = 6 ∧
      ∀ h ∈ cexEventTwoOn.hits.filterMap id, h.snr.isSome) ∧
    ((cexEventTwoOn.score = 0 ↔
      (cexEventTwoOn.totalColumns ≤ 3 ∨ 300 < cexEventTwoOn.totalColumns ∨
        cexEventTwoOn.notched = true ∨ cexEventTwoOn.onHits.length < 2 ∨
        1 < cexEventTwoOn.offHits.length ∨ cexEventTwoOn.combinedSnr < 2)) ∧
    (cexEventTwoOn.score ≠ 0 → cexEventTwoOn.score = cexEventTwoOn.combinedSnr)) :=
  ⟨⟨by decide, by decide⟩, score_zero_iff cexEventTwoOn (by decide) (by decide)⟩

theorem collectLabeledHits_error (l : List (ℕ × HitMap)) (c : ℕ) (h : l ≠ []) :
    collectLabeledHits l c = .error attributeErrorMsg := by
  cases l with
  | nil => exact absurd rfl h
  | cons p rest => rfl

/-- C5 (amended): `Event.find_events` returns no event stream at all: for
every nonempty list of hit maps, each per-channel invocation raises
AttributeError before yielding an event (the hit collection calls
`hits_for_coarse_channel`, which `HitMap` does not define), so the full
stream over all coarse channels (of which there is at least one) raises the
same error instead of producing a score-sorted — or any — sequence of
events. -/
theorem findEvents_raises (hitMaps : List HitMap) (c : ℕ) (hne : hitMaps ≠ []) :
    findEventsChannel hitMaps c = .error attributeErrorMsg ∧
    (0 < (hitMaps.headD default).coarseChannels →
      findEventsAll hitMaps = .error attributeErrorMsg) := by
  have hch : ∀ c' : ℕ, findEventsChannel hitMaps c' = .error attributeErrorMsg := by
    intro c'
    have henum : hitMaps.enum ≠ [] := by
      cases hitMaps with
      | nil => exact absurd rfl hne
      | cons m0 ms => simp [List.enum]
    have hc := collectLabeledHits_error hitMaps.enum c' henum
    unfold findEventsChannel
    rw [hc]
  refine ⟨hch c, ?_⟩
  intro hpos
  cases hitMaps with
  | nil => exact absurd rfl hne
  | cons m0 ms =>
    simp only [List.headD_cons] at hpos
    show concatChannels (m0 :: ms) (List.range m0.coarseChannels) = .error attributeErrorMsg
    obtain ⟨n, hn⟩ : ∃ n, m0.coarseChannels = n + 1 := ⟨m0.coarseChannels - 1, by omega⟩
    rw [hn, List.range_succ_eq_map]
    unfold concatChannels
    rw [hch 0]

/-- Witness for C5's amended theorem at a concrete nonempty cadence. -/
theorem findEvents_raises_witness :
    cexMaps ≠ [] ∧
    (findEventsChannel cexMaps 0 = .error attributeErrorMsg ∧
      (0 < (cexMaps.headD default).coarseChannels →
        findEventsAll cexMaps = .error attributeErrorMsg)) :=
  ⟨by decide, findEvents_raises cexMaps 0 (by decide)⟩

/-- Counterexample to C5 as stated: on the concrete cadence of six hit maps
the source produces no event stream — `Event.find_events` raises
AttributeError at the first hit-map access — so the returned stream is not
sorted by descending score (there is no returned stream to sort). -/
theorem findEvents_no_stream_cex :
    findEventsAll cexMaps = .error attributeErrorMsg := rfl

/-- Theorem for C2 (a code bug): serialising a hit map with one (fully
fitted) hit and deserialising it back fails: `HitMap.from_plain` calls
`HitInfo.from_plain(p)` without the required `coarse_channel_size` argument,
which raises TypeError whenever the hit list is nonempty, so the round trip
claimed by the spec cannot succeed. -/
theorem hitMap_roundtrip_fails :
    (hitMapToPlain cexHitMap).bind hitMapFromPlain = none := rfl

theorem hitInfo_roundtrip_exact (h : HitInfo) (hlt : h.firstColumn < h.coarseChannelSize)
    (hw : h.hitWindows = none) (p : PlainHit) (hp : hitInfoToPlain h = some p) :
    hitInfoFromPlain p h.coarseChannelSize = h := by
  obtain ⟨cc, ccs, fc, lc, hwin, odr, ods, osn, oms, oar⟩ := h
  simp only at hlt hw hp ⊢
  subst hw
  unfold hitInfoToPlain at hp
  cases odr with
  | none => simp at hp
  | some dr =>
    cases ods with
    | none => simp at hp
    | some ds =>
      cases osn with
      | none => simp at hp
      | some sn =>
        cases oms with
        | none => simp at hp
        | some ms =>
          cases oar with
          | none => simp at hp
          | some ar =>
            simp only [Option.some.injEq] at hp
            subst hp
            unfold hitInfoFromPlain HitInfo.offset
            simp only
            have hmod : (cc * ccs + fc) % ccs = fc := by
              rw [Nat.add_comm, Nat.mul_comm, Nat.add_mul_mod_self_left, Nat.mod_eq_of_lt hlt]
            have hoff : cc * ccs + fc - fc = cc * ccs := by omega
            have hdiv : cc * ccs / ccs = cc := Nat.mul_div_cancel cc (by omega)
            rw [hmod, hoff, hdiv]
            have hlast : cc * ccs + lc - cc * ccs = lc := by omega
            rw [hlast]

end Peti

